import Mathlib

/-!
Verification of the EchoCast asynchronous job / status-streaming subsystem and
its structured-text extraction and budget-enforcement logic.

The definitions below are a shallow embedding of the Python sources:
`src/server.py` (job runner, log broadcaster, SSE status stream),
`src/echocast/orchestrator.py` (pipeline sequencing and `_extract_queries`),
`src/echocast/scriptwriter.py` (`_extract_json` and the character-budget
enforcement inside `write_script`).

Modelling conventions:
* Python strings are Lean `String`s; slicing/length act on characters.
* `json.loads` is modelled by an executable recursive-descent parser over
  `List Char`; JSON numbers are modelled as integers (no pipeline input in the
  claims involves fractional numbers), and string-escape handling covers the
  standard JSON escapes.
* Exceptions are modelled with `Option`/`Except`: a raised
  `ValueError`/`JSONDecodeError` becomes `none`.
* The bounded `queue.Queue(maxsize=500)` becomes a `List String` with a
  drop-when-full `put_nowait`.
-/

namespace EchoCast

/-- ASCII whitespace as recognised by Python `str.strip()` and the regex
class `\s` (space, tab, newline, carriage return, vertical tab, form feed). -/
def isPySpace (c : Char) : Bool :=
  c = ' ' || c = '\t' || c = '\n' || c = '\r' || c = Char.ofNat 11 || c = Char.ofNat 12

/-- Python `str.strip()` on the character list. -/
def pyStripList (cs : List Char) : List Char :=
  ((cs.dropWhile isPySpace).reverse.dropWhile isPySpace).reverse

/-- Python `str.strip()` with no argument. -/
def pyStrip (s : String) : String :=
  String.mk (pyStripList s.data)

/-! ### JSON values and `json.loads` -/

/-- JSON values as produced by Python `json.loads`.  Numbers are modelled as
integers; object members keep insertion order (as Python `dict` does). -/
inductive Json where
  | null : Json
  | bool (b : Bool) : Json
  | num (n : Int) : Json
  | str (s : String) : Json
  | arr (elems : List Json) : Json
  | obj (members : List (String × Json)) : Json

/-- JSON insignificant whitespace (RFC 8259: space, tab, newline, return). -/
def jsonWs (c : Char) : Bool :=
  c = ' ' || c = '\t' || c = '\n' || c = '\r'

/-- Skip JSON whitespace. -/
def skipWs (cs : List Char) : List Char :=
  cs.dropWhile jsonWs

/-- The `\x7b` character. -/
def lcurl : Char := Char.ofNat 123

/-- The `\x7d` character. -/
def rcurl : Char := Char.ofNat 125

/-- Value of a hexadecimal digit. -/
def hexDigitVal (c : Char) : Option Nat :=
  if '0' ≤ c ∧ c ≤ '9' then some (c.toNat - 48)
  else if 'a' ≤ c ∧ c ≤ 'f' then some (c.toNat - 87)
  else if 'A' ≤ c ∧ c ≤ 'F' then some (c.toNat - 55)
  else none

/-- Body of a JSON string after the opening quote: returns the decoded
characters and the remainder after the closing quote.  Handles the standard
escapes; unescaped control characters are rejected (strict mode, as in
Python `json.loads`). -/
def parseStringBody : Nat → List Char → Option (List Char × List Char)
  | 0, _ => none
  | _, [] => none
  | fuel + 1, c :: rest =>
      if c = '"' then some ([], rest)
      else if c = '\\' then
        match rest with
        | [] => none
        | e :: r2 =>
            if e = '"' ∨ e = '\\' ∨ e = '/' then
              (parseStringBody fuel r2).map (fun p => (e :: p.1, p.2))
            else if e = 'b' then
              (parseStringBody fuel r2).map (fun p => (Char.ofNat 8 :: p.1, p.2))
            else if e = 'f' then
              (parseStringBody fuel r2).map (fun p => (Char.ofNat 12 :: p.1, p.2))
            else if e = 'n' then
              (parseStringBody fuel r2).map (fun p => ('\n' :: p.1, p.2))
            else if e = 'r' then
              (parseStringBody fuel r2).map (fun p => ('\r' :: p.1, p.2))
            else if e = 't' then
              (parseStringBody fuel r2).map (fun p => ('\t' :: p.1, p.2))
            else if e = 'u' then
              match r2 with
              | a :: b :: c2 :: d :: r3 =>
                  match hexDigitVal a, hexDigitVal b, hexDigitVal c2, hexDigitVal d with
                  | some x, some y, some z, some w =>
                      (parseStringBody fuel r3).map
                        (fun p => (Char.ofNat (4096 * x + 256 * y + 16 * z + w) :: p.1, p.2))
                  | _, _, _, _ => none
              | _ => none
            else none
      else if c.toNat < 32 then none
      else (parseStringBody fuel rest).map (fun p => (c :: p.1, p.2))

/-- Numeric value of a digit list. -/
def digitsVal (ds : List Char) : Nat :=
  ds.foldl (fun a c => 10 * a + (c.toNat - 48)) 0

/-- A JSON integer literal: optional minus sign, then `0` or a nonzero-led
digit run (JSON forbids leading zeros). -/
def parseNumTok (cs : List Char) : Option (Int × List Char) :=
  let core : List Char → Option (Nat × List Char) := fun t =>
    match t with
    | [] => none
    | c :: rest =>
        if c = '0' then some (0, rest)
        else if c.isDigit then
          some (digitsVal (c :: rest.takeWhile Char.isDigit), rest.dropWhile Char.isDigit)
        else none
  match cs with
  | '-' :: rest => (core rest).map (fun p => (-(p.1 : Int), p.2))
  | _ => (core cs).map (fun p => ((p.1 : Int), p.2))

/-- Parse a literal token such as `null`, `true`, `false`. -/
def parseLit (lit : List Char) (v : Json) (cs : List Char) : Option (Json × List Char) :=
  if List.isPrefixOf lit cs then some (v, cs.drop lit.length) else none

/-- Insert a parsed object member the way Python `dict` assignment does:
an existing key keeps its position but takes the new value, otherwise the
member is appended. -/
def insertMember : List (String × Json) → String → Json → List (String × Json)
  | [], k, v => [(k, v)]
  | (k0, v0) :: rest, k, v =>
      if k0 = k then (k0, v) :: rest else (k0, v0) :: insertMember rest k v

/-- Parser mode: a whole value, the tail of an array (accumulated elements),
or the tail of an object (accumulated members). -/
inductive PMode where
  | value : PMode
  | elems (acc : List Json) : PMode
  | members (acc : List (String × Json)) : PMode

/-- The recursive-descent core of `json.loads`, fueled so that it is plain
structural recursion. -/
def parseStep : Nat → PMode → List Char → Option (Json × List Char)
  | 0, _, _ => none
  | fuel + 1, PMode.value, cs0 =>
      match skipWs cs0 with
      | [] => none
      | c :: rest =>
          if c = '"' then
            (parseStringBody fuel rest).map (fun p => (Json.str (String.mk p.1), p.2))
          else if c = '[' then
            match skipWs rest with
            | ']' :: r2 => some (Json.arr [], r2)
            | r => parseStep fuel (PMode.elems []) r
          else if c = lcurl then
            let r := skipWs rest
            if r.head? = some rcurl then some (Json.obj [], r.tail)
            else parseStep fuel (PMode.members []) r
          else if c = 'n' then parseLit "null".data Json.null (c :: rest)
          else if c = 't' then parseLit "true".data (Json.bool true) (c :: rest)
          else if c = 'f' then parseLit "false".data (Json.bool false) (c :: rest)
          else (parseNumTok (c :: rest)).map (fun p => (Json.num p.1, p.2))
  | fuel + 1, PMode.elems acc, cs =>
      match parseStep fuel PMode.value cs with
      | none => none
      | some (v, rest) =>
          match skipWs rest with
          | ',' :: r2 => parseStep fuel (PMode.elems (acc ++ [v])) r2
          | ']' :: r2 => some (Json.arr (acc ++ [v]), r2)
          | _ => none
  | fuel + 1, PMode.members acc, cs =>
      match cs with
      | '"' :: rest =>
          match parseStringBody fuel rest with
          | none => none
          | some (key, r1) =>
              match skipWs r1 with
              | ':' :: r2 =>
                  match parseStep fuel PMode.value r2 with
                  | none => none
                  | some (v, r3) =>
                      let acc2 := insertMember acc (String.mk key) v
                      match skipWs r3 with
                      | ',' :: r4 => parseStep fuel (PMode.members acc2) (skipWs r4)
                      | r4 =>
                          if r4.head? = some rcurl then some (Json.obj acc2, r4.tail)
                          else none
              | _ => none
      | _ => none

/-- Python `json.loads`: parse one JSON value and require only whitespace to
follow; any parse error (`JSONDecodeError`) becomes `none`. -/
def pyJsonLoads (s : String) : Option Json :=
  match parseStep (4 * s.data.length + 8) PMode.value s.data with
  | some (v, rest) => if skipWs rest = [] then some v else none
  | none => none

/-! ### Python `str()` of a parsed value (used by `_extract_queries`) -/

/-- Python `repr()` of a JSON-shaped value, fueled by depth.  Escaping inside
string reprs is not modelled (the claims never exercise it). -/
def pyReprFuel : Nat → Json → String
  | 0, _ => ""
  | fuel + 1, v =>
      match v with
      | Json.null => "None"
      | Json.bool true => "True"
      | Json.bool false => "False"
      | Json.num n => toString n
      | Json.str s => "'" ++ s ++ "'"
      | Json.arr xs => "[" ++ String.intercalate ", " (xs.map (pyReprFuel fuel)) ++ "]"
      | Json.obj ms =>
          "\x7b" ++
            String.intercalate ", "
              (ms.map (fun m => "'" ++ m.1 ++ "': " ++ pyReprFuel fuel m.2)) ++
          "\x7d"

mutual

/-- Nesting depth of a JSON value (fuel bound for `pyReprFuel`). -/
def jsonDepth : Json → Nat
  | Json.null => 1
  | Json.bool _ => 1
  | Json.num _ => 1
  | Json.str _ => 1
  | Json.arr xs => 1 + jsonDepthList xs
  | Json.obj ms => 1 + jsonDepthMembers ms

/-- Depth of a list of JSON values. -/
def jsonDepthList : List Json → Nat
  | [] => 0
  | x :: xs => max (jsonDepth x) (jsonDepthList xs)

/-- Depth of a list of JSON object members. -/
def jsonDepthMembers : List (String × Json) → Nat
  | [] => 0
  | m :: ms => max (jsonDepth m.2) (jsonDepthMembers ms)

end

/-- Python `str()` applied to a parsed JSON value, as in
`[str(q) for q in data]` in `_extract_queries`. -/
def pyStr (v : Json) : String :=
  match v with
  | Json.str s => s
  | Json.null => "None"
  | Json.bool true => "True"
  | Json.bool false => "False"
  | Json.num n => toString n
  | v => pyReprFuel (jsonDepth v) v

/-! ### The two regex searches used by `_extract_json` / `_extract_queries`

`re.search(r"```(?:json)?\s*(\[.*?\])\s*```", raw, re.DOTALL)` and
`re.search(r"\[.*\]", raw, re.DOTALL)`.  Both are modelled directly with
Python's leftmost-match semantics; the lazy `.*?` takes the shortest body for
which the rest of the pattern matches, the greedy `.*` the longest. -/

/-- Does the text after the capture's closing `]` match `\s*` + three
backticks? -/
def fenceCloseOk (cs : List Char) : Bool :=
  List.isPrefixOf "```".data (cs.dropWhile isPySpace)

/-- Lazy scan for the capture body: try each successive `]` as the capture's
closing bracket (shortest first), requiring the close of the fence after it.
`acc` holds the scanned body characters in reverse. -/
def fenceScan : List Char → List Char → Option (List Char)
  | _, [] => none
  | acc, c :: rest =>
      if c = ']' then
        if fenceCloseOk rest then some (acc.reverse ++ [']'])
        else fenceScan (c :: acc) rest
      else fenceScan (c :: acc) rest

/-- Match the fence pattern anchored at the start of `cs`, returning the
capture group `(\[.*?\])`.  The optional `(?:json)?` group prefers to match
`json` when present. -/
def fenceMatchAt (cs : List Char) : Option (List Char) :=
  if List.isPrefixOf "```".data cs then
    let rest := cs.drop 3
    let attempt : List Char → Option (List Char) := fun t =>
      match t.dropWhile isPySpace with
      | '[' :: afterBr =>
          match fenceScan [] afterBr with
          | some cap => some ('[' :: cap)
          | none => none
      | _ => none
    match (if List.isPrefixOf "json".data rest then attempt (rest.drop 4) else none) with
    | some cap => some cap
    | none => attempt rest
  else none

/-- `re.search` for the fence pattern: the leftmost start position wins. -/
def searchFence : List Char → Option (List Char)
  | [] => none
  | c :: t =>
      match fenceMatchAt (c :: t) with
      | some cap => some cap
      | none => searchFence t

/-- `re.search(r"\[.*\]", raw, re.DOTALL)`: with a greedy `.*`, the match
(when it exists) runs from the first `[` to the last `]` of the text. -/
def searchBracket (cs : List Char) : Option (List Char) :=
  match cs.dropWhile (fun c => c != '[') with
  | [] => none
  | _ :: t =>
      match t.reverse.dropWhile (fun c => c != ']') with
      | [] => none
      | r => some ('[' :: r.reverse)

/-! ### `_extract_json` (scriptwriter) and `_extract_queries` (orchestrator) -/

/-- Keep a parse result only when it is a JSON array (Python's
`isinstance(data, list)` check; the fence/bracket branches can only ever
parse text that starts with `[`, so for them this is no extra filter). -/
def asArr : Option Json → Option (List Json)
  | some (Json.arr xs) => some xs
  | _ => none

/-- Strategy 1: parse the whole text directly and keep it if it is a list. -/
def directStrategyJson (raw : String) : Option (List Json) :=
  asArr (pyJsonLoads raw)

/-- Strategy 2: parse the capture of the triple-backtick fence regex. -/
def fenceStrategy (raw : String) : Option (List Json) :=
  match searchFence raw.data with
  | some cap => asArr (pyJsonLoads (String.mk cap))
  | none => none

/-- Strategy 3: parse the greedy first-`[`-to-last-`]` span. -/
def bracketStrategy (raw : String) : Option (List Json) :=
  match searchBracket raw.data with
  | some cap => asArr (pyJsonLoads (String.mk cap))
  | none => none

/-- `_extract_json` from `src/echocast/scriptwriter.py`: the three strategies
in order, each parse error discarded silently; `none` models the final
`raise ValueError(...)`. -/
def pyExtractJson (raw : String) : Option (List Json) :=
  match directStrategyJson raw with
  | some xs => some xs
  | none =>
      match fenceStrategy raw with
      | some xs => some xs
      | none => bracketStrategy raw

/-- Strategy 1 of `_extract_queries`: a direct parse that yields a list is
returned with every element passed through Python `str()`. -/
def directStrategyQueries (raw : String) : Option (List Json) :=
  match pyJsonLoads raw with
  | some (Json.arr xs) => some (xs.map (fun q => Json.str (pyStr q)))
  | _ => none

/-- `_extract_queries` from `src/echocast/orchestrator.py`: same three
strategies, but only the direct-parse branch stringifies the elements. -/
def pyExtractQueries (raw : String) : Option (List Json) :=
  match directStrategyQueries raw with
  | some xs => some xs
  | none =>
      match fenceStrategy raw with
      | some xs => some xs
      | none => bracketStrategy raw

/-! ### Budget enforcement inside `write_script` (`src/echocast/scriptwriter.py`)

After `_extract_json`, `write_script` walks the dialogue twice: a validation
loop that truncates any line whose text exceeds `MAX_CHARS_PER_LINE`
(mutating the line in place and keeping the running character count in
step), and — only when the post-truncation total exceeds
`MAX_SCRIPT_CHARS` — a trimming loop that keeps the longest prefix whose
cumulative length stays within the total budget. -/

/-- One dialogue line, `\x7b"speaker": ..., "text": ...\x7d`. -/
structure DialogueLine where
  speaker : String
  text : String
deriving DecidableEq

/-- `MAX_CHARS_PER_LINE` from `src/echocast/config.py`. -/
def MAX_CHARS_PER_LINE : Nat := 2400

/-- `MAX_SCRIPT_CHARS` from `src/echocast/config.py`. -/
def MAX_SCRIPT_CHARS : Nat := 8000

/-- Python character slicing `text[:n]`. -/
def pyTake (s : String) (n : Nat) : String :=
  String.mk (s.data.take n)

/-- The validation loop's effect on one line: `line["text"] = text[:limit]`
when `line_len > limit`. -/
def truncateLine (perLimit : Nat) (l : DialogueLine) : DialogueLine :=
  if perLimit < l.text.length then { l with text := pyTake l.text perLimit } else l

/-- Sum of the text lengths of a dialogue (the `total_chars` accumulator). -/
def totalLen (ls : List DialogueLine) : Nat :=
  (ls.map (fun l => l.text.length)).sum

/-- The trimming loop: keep lines while `running + line_len` stays within the
total budget, and `break` at the first line that would overflow. -/
def trimToBudget (totalLimit : Nat) : Nat → List DialogueLine → List DialogueLine
  | _, [] => []
  | running, l :: rest =>
      if totalLimit < running + l.text.length then []
      else l :: trimToBudget totalLimit (running + l.text.length) rest

/-- The budget-enforcement portion of `write_script`: truncate every line to
the per-line limit, then trim to the total budget — the trimming loop runs
only when the post-truncation total exceeds the budget. -/
def enforceBudget (perLimit totalLimit : Nat) (dialogue : List DialogueLine) :
    List DialogueLine :=
  let t := dialogue.map (truncateLine perLimit)
  if totalLimit < totalLen t then trimToBudget totalLimit 0 t else t

/-! ### The orchestrator pipeline (`src/echocast/orchestrator.py`, `run`)

The five stages (query generation, research, summarization, scriptwriting,
production) are external collaborators: each is an opaque function that
returns a value or fails.  `run` itself calls them strictly in sequence,
raising `RuntimeError("Research stage returned no data.")` when the research
stage returns an empty list; it catches nothing, so the first failure aborts
the rest.  The embedding instruments `run` with a trace of the stages it
actually invoked. -/

/-- One `\x7burl, title, text\x7d` research record. -/
structure ResearchRec where
  url : String
  title : String
  text : String
deriving DecidableEq

/-- Tags for the five pipeline stages, in pipeline order. -/
inductive StageTag where
  | queryGen : StageTag
  | researchStage : StageTag
  | summarizeStage : StageTag
  | scriptStage : StageTag
  | produceStage : StageTag
deriving DecidableEq

/-- The external stage implementations handed to the orchestrator:
`call_flash`, `research`, `summarise`, `write_script`, `produce`.  A
`.error` models an exception escaping the stage. -/
structure Stages where
  callFlash : String → Except String String
  researchRun : List Json → Except String (List ResearchRec)
  summariseRun : String → List ResearchRec → Except String String
  writeScriptRun : String → String → Except String (List DialogueLine)
  produceRun : List DialogueLine → Except String String

/-- The trace of all five stages in order. -/
def allStages : List StageTag :=
  [StageTag.queryGen, StageTag.researchStage, StageTag.summarizeStage,
   StageTag.scriptStage, StageTag.produceStage]

/-- `run(topic)` instrumented with the list of stages invoked: each stage's
result feeds the next, any failure propagates immediately (nothing after it
runs), and an empty research result raises
`RuntimeError("Research stage returned no data.")`. -/
def runPipeline (st : Stages) (topic : String) : Except String String × List StageTag :=
  match st.callFlash topic with
  | Except.error e => (Except.error e, [StageTag.queryGen])
  | Except.ok raw =>
      match pyExtractQueries raw with
      | none =>
          (Except.error "Could not extract search queries from LLM response.",
           [StageTag.queryGen])
      | some queries =>
          match st.researchRun queries with
          | Except.error e => (Except.error e, [StageTag.queryGen, StageTag.researchStage])
          | Except.ok resData =>
              if resData.isEmpty then
                (Except.error "Research stage returned no data.",
                 [StageTag.queryGen, StageTag.researchStage])
              else
                match st.summariseRun topic resData with
                | Except.error e =>
                    (Except.error e,
                     [StageTag.queryGen, StageTag.researchStage, StageTag.summarizeStage])
                | Except.ok report =>
                    match st.writeScriptRun topic report with
                    | Except.error e =>
                        (Except.error e,
                         [StageTag.queryGen, StageTag.researchStage,
                          StageTag.summarizeStage, StageTag.scriptStage])
                    | Except.ok dialogue =>
                        match st.produceRun dialogue with
                        | Except.error e => (Except.error e, allStages)
                        | Except.ok path => (Except.ok path, allStages)

/-! ### The web server (`src/server.py`)

`_JOBS : dict[str, dict]` maps a job id to `\x7bstatus, result, error\x7d`;
`_status_queues : dict[str, queue.Queue]` maps a job id to its bounded
(maxsize 500) log channel.  `sys.stdout` is replaced by `_TeeWriter`, whose
`write` pushes every nonblank stripped line to EVERY queue in
`_status_queues` with `put_nowait` (dropping the line on `queue.Full`).
Both dicts are modelled as association lists. -/

/-- Job status values used by `server.py`. -/
inductive JobStatus where
  | running : JobStatus
  | done : JobStatus
  | jobError : JobStatus
deriving DecidableEq

/-- One `_JOBS` entry: `\x7b"status", "result", "error"\x7d`. -/
structure Job where
  status : JobStatus
  result : Option String
  error : Option String
deriving DecidableEq

/-- Python `dict` access `d.get(k)` / `d[k]` on an association list. -/
def alookup {α : Type} (k : String) : List (String × α) → Option α
  | [] => none
  | e :: t => if e.1 = k then some e.2 else alookup k t

/-- The `_status_queues` map. -/
abbrev QueueMap := List (String × List String)

/-- `queue.Queue(maxsize=500)` capacity. -/
def queueCap : Nat := 500

/-- `q.put_nowait(line)` with `queue.Full` swallowed: the line is dropped
when the queue is full. -/
def putNowait (q : List String) (line : String) : List String :=
  if q.length < queueCap then q ++ [line] else q

/-- `_TeeWriter.write`: when the stripped text is nonblank, push it onto
every queue in `_status_queues` (there is no per-job routing). -/
def teeWrite (qs : QueueMap) (text : String) : QueueMap :=
  if pyStrip text = "" then qs
  else qs.map (fun e => (e.1, putNowait e.2 (pyStrip text)))

/-- The sentinel pushed by `_run`'s `finally` block. -/
def doneSentinel : String := "__DONE__"

/-- `pathlib.Path(...).name`: the final path component. -/
def pathName (p : String) : String :=
  ((p.splitOn "/").getLast?).getD p

/-- `generate`'s submission effect: record the job as
`\x7b"status": "running", "result": None, "error": None\x7d` and open a
fresh channel for it. -/
def submitJob (jobs : List (String × Job)) (qs : QueueMap) (jobId : String) :
    List (String × Job) × QueueMap :=
  ((jobId, ⟨JobStatus.running, none, none⟩) :: jobs, (jobId, []) :: qs)

/-- `_run`: the background job runner.  `outcome` is the pipeline's result
(`.ok path` or the exception's message), `logs` are the stripped nonblank
lines the pipeline printed through `_TeeWriter` into this job's channel
while running, and `q` is that channel's prior content.  The `try/except`
stores the failure in the job (never re-raising), and the `finally` pushes
the sentinel with a blocking `put` (modelled as an append).  Returns the
job's final record and its channel's content. -/
def runJob (outcome : Except String String) (logs : List String) (q : List String) :
    Job × List String :=
  let job : Job :=
    match outcome with
    | Except.ok p => ⟨JobStatus.done, some (pathName p), none⟩
    | Except.error e => ⟨JobStatus.jobError, none, some e⟩
  (job, (logs.foldl putNowait q) ++ [doneSentinel])

/-- The individual field assignments `_run` performs on a `_JOBS` entry,
starting from the submission-time record: on success `status = "done"` then
`result = output_path.name`; on failure `status = "error"` then
`error = str(e)`. -/
inductive JobStep : Job → Job → Prop
  | setStatusDone :
      JobStep ⟨JobStatus.running, none, none⟩ ⟨JobStatus.done, none, none⟩
  | setResult (r : String) :
      JobStep ⟨JobStatus.done, none, none⟩ ⟨JobStatus.done, some r, none⟩
  | setStatusError :
      JobStep ⟨JobStatus.running, none, none⟩ ⟨JobStatus.jobError, none, none⟩
  | setError (e : String) :
      JobStep ⟨JobStatus.jobError, none, none⟩ ⟨JobStatus.jobError, none, some e⟩

/-- Job records reachable from the submission-time record through `_run`'s
assignments. -/
inductive JobReachable : Job → Prop
  | init : JobReachable ⟨JobStatus.running, none, none⟩
  | step {s t : Job} : JobReachable s → JobStep s t → JobReachable t

/-! ### The SSE status stream (`status_stream` / `event_stream`) -/

/-- What one iteration of `event_stream`'s loop observes: either
`queue.Empty` after the 120 s timeout, or a dequeued line. -/
inductive ChannelObs where
  | timeout : ChannelObs
  | line (l : String) : ChannelObs

/-- The SSE events `event_stream` serialises as `data: ...` frames. -/
inductive SseEvent where
  | keepalive : SseEvent
  | log (message : String) : SseEvent
  | complete (status : JobStatus) (result : Option String) (error : Option String) : SseEvent
deriving DecidableEq

/-- The event `event_stream` emits for one non-terminal observation. -/
def obsEvent : ChannelObs → SseEvent
  | ChannelObs.timeout => SseEvent.keepalive
  | ChannelObs.line l => SseEvent.log l

/-- Is an event the completion event? -/
def isCompleteEv : SseEvent → Bool
  | SseEvent.complete _ _ _ => true
  | _ => false

/-- `event_stream`'s loop over a sequence of channel observations for a job:
a timeout yields a keepalive, a line equal to `"__DONE__"` yields the single
completion event (reading the job's current fields) and `break`s, any other
line yields a log event. -/
def relayEvents (job : Job) : List ChannelObs → List SseEvent
  | [] => []
  | ChannelObs.timeout :: rest => SseEvent.keepalive :: relayEvents job rest
  | ChannelObs.line l :: rest =>
      if l = doneSentinel then [SseEvent.complete job.status job.result job.error]
      else SseEvent.log l :: relayEvents job rest

/-- `status_stream`: an unknown job id gets an immediate 404 (no stream); a
known id with no channel yields an empty stream (`if not q: return`);
otherwise the loop relays the observations. -/
def statusStream (jobs : List (String × Job)) (qs : QueueMap) (jobId : String)
    (obs : List ChannelObs) : Except Nat (List SseEvent) :=
  match alookup jobId jobs with
  | none => Except.error 404
  | some job =>
      match alookup jobId qs with
      | none => Except.ok []
      | some _ => Except.ok (relayEvents job obs)

/-- `event_stream` consuming the channel's queued items directly:
`queue.get` removes each consumed item, and the loop `break`s at the
sentinel.  Returns the events emitted and the items left on the queue. -/
def drainQueue (job : Job) : List String → List SseEvent × List String
  | [] => ([], [])
  | l :: rest =>
      if l = doneSentinel then
        ([SseEvent.complete job.status job.result job.error], rest)
      else
        let p := drainQueue job rest
        (SseEvent.log l :: p.1, p.2)

/-- Overwrite a job's queue in the map (what consuming items amounts to for
the map: the key itself is never removed — `server.py` contains no
deletion from `_status_queues`). -/
def setQueue (qs : QueueMap) (jobId : String) (q : List String) : QueueMap :=
  qs.map (fun e => if e.1 = jobId then (e.1, q) else e)

/-- `status_stream` together with its effect on `_status_queues`: the
consumed items disappear from the job's queue, but the map entry stays. -/
def statusStreamDrain (jobs : List (String × Job)) (qs : QueueMap) (jobId : String) :
    Except Nat (List SseEvent × QueueMap) :=
  match alookup jobId jobs with
  | none => Except.error 404
  | some job =>
      match alookup jobId qs with
      | none => Except.ok ([], qs)
      | some q =>
          let p := drainQueue job q
          Except.ok (p.1, setQueue qs jobId p.2)

/-- Concrete stage implementations whose summarization stage fails (used to
exercise the pipeline sequencing theorem on a concrete run). -/
def sampleStagesFail3 : Stages :=
  ⟨fun _ => Except.ok "[\"q1\"]",
   fun _ => Except.ok [⟨"u", "t", "body"⟩],
   fun _ _ => Except.error "summarizer boom",
   fun _ _ => Except.ok [],
   fun _ => Except.ok "cast.mp3"⟩

/-! ## Helper lemmas -/

/-- Looking a key up after a key-preserving map over an association list. -/
theorem lookup_map_entry (f : String → List String → List String) (b : String) :
    ∀ (qs : QueueMap) (qb : List String), alookup b qs = some qb →
      alookup b (qs.map (fun e => (e.1, f e.1 e.2))) = some (f b qb) := by
  intro qs
  induction qs with
  | nil => intro qb h; simp [alookup] at h
  | cons e t ih =>
      intro qb h
      rcases e with ⟨k, v⟩
      by_cases hbe : k = b
      · subst hbe
        simp [alookup] at h ⊢
        exact congrArg (f k) h
      · simp [alookup, hbe] at h ⊢
        exact ih qb h

/-- Looking up the overwritten key after `setQueue`. -/
theorem lookup_setQueue (jobId : String) (q : List String) :
    ∀ (qs : QueueMap) (q0 : List String), alookup jobId qs = some q0 →
      alookup jobId (setQueue qs jobId q) = some q := by
  intro qs
  induction qs with
  | nil => intro q0 h; simp [alookup] at h
  | cons e t ih =>
      intro q0 h
      rcases e with ⟨k, v⟩
      by_cases hbe : k = jobId
      · subst hbe
        simp [alookup, setQueue] at h ⊢
      · simp [alookup, setQueue, hbe] at h ⊢
        have := ih q0 h
        simpa [setQueue] using this

/-- Effect of `_TeeWriter.write` on any one open channel: every open channel
receives the stripped line. -/
theorem teeWrite_lookup (qs : QueueMap) (b : String) (qb : List String)
    (text : String) (hline : ¬ pyStrip text = "") (hb : alookup b qs = some qb) :
    alookup b (teeWrite qs text) = some (putNowait qb (pyStrip text)) := by
  unfold teeWrite
  rw [if_neg hline]
  exact lookup_map_entry (fun _ v => putNowait v (pyStrip text)) b qs qb hb

/-- Everything in the queue after pushing a batch of lines was either already
queued or is one of the pushed lines. -/
theorem mem_foldl_putNowait :
    ∀ (logs q : List String) (x : String),
      x ∈ logs.foldl putNowait q → x ∈ q ∨ x ∈ logs := by
  intro logs
  induction logs with
  | nil => intro q x h; exact Or.inl h
  | cons l t ih =>
      intro q x h
      rcases ih (putNowait q l) x h with h1 | h2
      · unfold putNowait at h1
        split at h1
        · rcases List.mem_append.mp h1 with hq | hl
          · exact Or.inl hq
          · simp at hl
            subst hl
            exact Or.inr (List.mem_cons_self _ _)
        · exact Or.inl h1
      · exact Or.inr (List.mem_cons_of_mem _ h2)

/-- `obsEvent` never produces the completion event. -/
theorem obsEvent_not_complete (o : ChannelObs) : isCompleteEv (obsEvent o) = false := by
  cases o <;> rfl

/-- Relaying observations with no in-band sentinel followed by the sentinel:
each observation maps to its event, then the single completion event ends
the stream. -/
theorem relayEvents_append (job : Job) :
    ∀ (pre post : List ChannelObs),
      (∀ l, ChannelObs.line l ∈ pre → l ≠ doneSentinel) →
      relayEvents job (pre ++ ChannelObs.line doneSentinel :: post) =
        pre.map obsEvent ++ [SseEvent.complete job.status job.result job.error] := by
  intro pre
  induction pre with
  | nil => intro post _; simp [relayEvents]
  | cons o t ih =>
      intro post h
      cases o with
      | timeout =>
          simp only [List.cons_append, relayEvents, List.map_cons, obsEvent]
          exact congrArg _ (ih post (fun l hl => h l (List.mem_cons_of_mem _ hl)))
      | line l =>
          have hne : l ≠ doneSentinel := h l (List.mem_cons_self _ _)
          simp only [List.cons_append, relayEvents, List.map_cons, obsEvent, if_neg hne]
          exact congrArg _ (ih post (fun l2 hl => h l2 (List.mem_cons_of_mem _ hl)))

/-- The relayed stream never contains a log event carrying the sentinel. -/
theorem log_sentinel_not_relayed (job : Job) :
    ∀ obs, SseEvent.log doneSentinel ∉ relayEvents job obs := by
  intro obs
  induction obs with
  | nil => simp [relayEvents]
  | cons o t ih =>
      cases o with
      | timeout =>
          simp only [relayEvents, List.mem_cons]
          rintro (h | h)
          · exact SseEvent.noConfusion h
          · exact ih h
      | line l =>
          by_cases hl : l = doneSentinel
          · subst hl
            simp [relayEvents]
          · simp only [relayEvents, if_neg hl, List.mem_cons]
            rintro (h | h)
            · exact hl (SseEvent.log.inj h).symm
            · exact ih h

/-- Draining a queue whose first sentinel occurrence is in the middle. -/
theorem drainQueue_append (job : Job) :
    ∀ (pre post : List String), doneSentinel ∉ pre →
      drainQueue job (pre ++ doneSentinel :: post) =
        (pre.map SseEvent.log ++ [SseEvent.complete job.status job.result job.error], post) := by
  intro pre
  induction pre with
  | nil => intro post _; simp [drainQueue]
  | cons l t ih =>
      intro post h
      have hne : l ≠ doneSentinel := fun he => h (he ▸ List.mem_cons_self _ _)
      have hnt : doneSentinel ∉ t := fun ht => h (List.mem_cons_of_mem _ ht)
      have hi := ih post hnt
      simp only [List.cons_append, drainQueue, if_neg hne, List.append_eq, hi, List.map_cons,
        List.cons_append]

/-! ## C1 — log-channel cross-job isolation -/

/-- C1 (counterexample): the claim says a progress line emitted during job
A's pipeline is pushed only onto A's channel and never appears on job B's.
With channels open for jobs `"a"` and `"b"`, a line printed while `"a"`'s
pipeline runs is pushed by `_TeeWriter.write` onto `"b"`'s channel as well:
the writer fans every nonblank line out to every queue in
`_status_queues`. -/
theorem C1_cross_job_isolation_counterexample :
    alookup "b" (teeWrite [("a", []), ("b", [])] "hello from job a\n") =
      some ["hello from job a"] := by
  rfl

/-- C1 (amended): a progress line emitted during any job's pipeline execution
is pushed onto EVERY open channel — job B's stream relays job A's lines, so
cross-job isolation does not hold; isolation would require at most one open
channel. -/
theorem C1_cross_job_isolation_amended (qs : QueueMap) (b : String) (qb : List String)
    (text : String) (hline : ¬ pyStrip text = "") (hb : alookup b qs = some qb) :
    alookup b (teeWrite qs text) = some (putNowait qb (pyStrip text)) :=
  teeWrite_lookup qs b qb text hline hb

/-- C1 witness: the amended theorem applied to two concrete open channels. -/
theorem C1_cross_job_isolation_amended_witness :
    alookup "b" (teeWrite [("a", []), ("b", [])] " hi \n") =
      some (putNowait [] (pyStrip " hi \n")) :=
  C1_cross_job_isolation_amended [("a", []), ("b", [])] "b" [] " hi \n"
    (by decide) (by decide)

/-! ## C5 — job state invariant -/

/-- C5: every job record reachable from the submission-time record through
`_run`'s assignments never has `result` and `error` both set, has `result`
set only with status `done` and `error` set only with status `error`; and
every single assignment either keeps the status or moves it from `running`
to `done` or from `running` to `error` — never any other direction. -/
theorem C5_job_state_invariant :
    (∀ j : Job, JobReachable j →
      (¬ (j.result.isSome ∧ j.error.isSome)) ∧
      (j.result.isSome → j.status = JobStatus.done) ∧
      (j.error.isSome → j.status = JobStatus.jobError)) ∧
    (∀ s t : Job, JobStep s t →
      s.status = t.status ∨
        (s.status = JobStatus.running ∧
          (t.status = JobStatus.done ∨ t.status = JobStatus.jobError))) := by
  constructor
  · intro j h
    induction h with
    | init => simp
    | step _ hst _ => cases hst <;> simp
  · intro s t hst
    cases hst <;> simp

/-- C5 witness: the invariant evaluated on the reachable record of a
successfully finished job. -/
theorem C5_job_state_invariant_witness :
    ¬ ((⟨JobStatus.done, some "cast.mp3", none⟩ : Job).result.isSome ∧
       (⟨JobStatus.done, some "cast.mp3", none⟩ : Job).error.isSome) :=
  (C5_job_state_invariant.1 ⟨JobStatus.done, some "cast.mp3", none⟩
    (JobReachable.step (JobReachable.step JobReachable.init JobStep.setStatusDone)
      (JobStep.setResult "cast.mp3"))).1

/-! ## C6 — job-runner failure containment and guaranteed close -/

/-- C6 (counterexample): the claim says the terminal marker is pushed onto
the job's channel exactly once and is the last item on it.  When the
pipeline itself prints a line that strips to `"__DONE__"`, `_TeeWriter`
pushes that in-band marker onto the channel and the runner's `finally`
pushes a second one: the marker-valued item occurs twice. -/
theorem C6_runner_close_counterexample :
    List.count doneSentinel (runJob (Except.ok "output/cast.mp3") [doneSentinel] []).2 = 2 := by
  rfl

/-- C6 (amended): any exception escaping the pipeline is caught once at the
runner boundary and stored as the job's error string with status `error`
(never re-raised — `runJob` returns normally in both cases); on success the
result is stored with status `done`; unconditionally the runner's `finally`
block appends the sentinel exactly once, after every log line of the run,
and it is the last item the runner leaves on the channel; the marker-valued
item is unique on the channel provided no pipeline log line itself equals
the marker. -/
theorem C6_runner_close_amended (outcome : Except String String) (logs q0 : List String) :
    (∀ e, outcome = Except.error e →
      (runJob outcome logs q0).1 = ⟨JobStatus.jobError, none, some e⟩) ∧
    (∀ p, outcome = Except.ok p →
      (runJob outcome logs q0).1 = ⟨JobStatus.done, some (pathName p), none⟩) ∧
    (runJob outcome logs q0).2 = (logs.foldl putNowait q0) ++ [doneSentinel] ∧
    (runJob outcome logs q0).2.getLast? = some doneSentinel ∧
    (doneSentinel ∉ q0 → doneSentinel ∉ logs →
      List.count doneSentinel (runJob outcome logs q0).2 = 1) := by
  refine ⟨?_, ?_, ?_, ?_, ?_⟩
  · intro e he; subst he; rfl
  · intro p hp; subst hp; rfl
  · cases outcome <;> rfl
  · have h2 : (runJob outcome logs q0).2 = (logs.foldl putNowait q0) ++ [doneSentinel] := by
      cases outcome <;> rfl
    rw [h2, List.getLast?_concat]
  · intro hq hl
    have h2 : (runJob outcome logs q0).2 = (logs.foldl putNowait q0) ++ [doneSentinel] := by
      cases outcome <;> rfl
    rw [h2, List.count_append]
    have hnm : doneSentinel ∉ logs.foldl putNowait q0 := by
      intro hmem
      rcases mem_foldl_putNowait logs q0 doneSentinel hmem with h | h
      · exact hq h
      · exact hl h
    rw [List.count_eq_zero.mpr hnm]
    rfl

/-- C6 witness: a failing run with one ordinary log line — the error is
stored and the channel ends with a single sentinel. -/
theorem C6_runner_close_amended_witness :
    List.count doneSentinel (runJob (Except.error "boom") ["stage 1 started"] []).2 = 1 :=
  (C6_runner_close_amended (Except.error "boom") ["stage 1 started"] []).2.2.2.2
    (by decide) (by decide)

/-! ## C7 — status-stream state machine -/

/-- C7: for an unknown job identifier `status_stream` fails immediately with
404 and never opens a stream; for a known job with a channel it relays the
loop's observations: a timeout emits a keepalive and re-enters the loop, a
non-sentinel line emits a log event and re-enters the loop, and the sentinel
emits exactly one completion event carrying the job's status/result/error,
after which the stream ends with no further events. -/
theorem C7_status_stream_state_machine :
    (∀ jobs qs jobId obs, alookup jobId jobs = none →
      statusStream jobs qs jobId obs = Except.error 404) ∧
    (∀ jobs qs jobId obs job q, alookup jobId jobs = some job →
      alookup jobId qs = some q →
      statusStream jobs qs jobId obs = Except.ok (relayEvents job obs)) ∧
    (∀ job rest, relayEvents job (ChannelObs.timeout :: rest) =
      SseEvent.keepalive :: relayEvents job rest) ∧
    (∀ job l rest, l ≠ doneSentinel →
      relayEvents job (ChannelObs.line l :: rest) =
        SseEvent.log l :: relayEvents job rest) ∧
    (∀ job pre post, (∀ l, ChannelObs.line l ∈ pre → l ≠ doneSentinel) →
      relayEvents job (pre ++ ChannelObs.line doneSentinel :: post) =
        pre.map obsEvent ++ [SseEvent.complete job.status job.result job.error] ∧
      List.countP (fun ev => isCompleteEv ev)
        (relayEvents job (pre ++ ChannelObs.line doneSentinel :: post)) = 1) := by
  refine ⟨?_, ?_, ?_, ?_, ?_⟩
  · intro jobs qs jobId obs h
    unfold statusStream
    rw [h]
  · intro jobs qs jobId obs job q hj hq
    unfold statusStream
    rw [hj, hq]
  · intro job rest; rfl
  · intro job l rest h
    simp [relayEvents, h]
  · intro job pre post h
    have he := relayEvents_append job pre post h
    refine ⟨he, ?_⟩
    rw [he, List.countP_append]
    have h0 : List.countP (fun ev => isCompleteEv ev) (pre.map obsEvent) = 0 := by
      rw [List.countP_eq_zero]
      intro ev hev
      rcases List.mem_map.mp hev with ⟨o, _, ho⟩
      rw [← ho]
      simp [obsEvent_not_complete]
    rw [h0]
    rfl

/-- C7 witness: concrete instances — an unknown id is rejected with 404, and
a trace with a keepalive and a log line followed by the sentinel yields
exactly those events and one final completion event. -/
theorem C7_status_stream_state_machine_witness :
    statusStream [("a", ⟨JobStatus.running, none, none⟩)] [("a", [])] "zzz"
      [ChannelObs.timeout] = Except.error 404 ∧
    relayEvents ⟨JobStatus.done, some "cast.mp3", none⟩
      ([ChannelObs.timeout, ChannelObs.line "working"] ++
        ChannelObs.line doneSentinel :: [ChannelObs.line "late"]) =
      [SseEvent.keepalive, SseEvent.log "working",
       SseEvent.complete JobStatus.done (some "cast.mp3") none] :=
  ⟨C7_status_stream_state_machine.1 [("a", ⟨JobStatus.running, none, none⟩)] [("a", [])]
      "zzz" [ChannelObs.timeout] (by decide),
   (C7_status_stream_state_machine.2.2.2.2 ⟨JobStatus.done, some "cast.mp3", none⟩
      [ChannelObs.timeout, ChannelObs.line "working"] [ChannelObs.line "late"]
      (by intro l hl
          simp at hl
          subst hl
          decide)).1⟩

/-! ## C9 — log-channel lifecycle -/

/-- C9 (counterexample): the claim says that once the terminal marker has
been consumed and relayed, the channel map no longer contains an entry for
the job.  Consuming the marker for job `"a"` and emitting the completion
event leaves `_status_queues` still holding the entry for `"a"` (drained,
but present): `server.py` never deletes from `_status_queues`. -/
theorem C9_channel_lifecycle_counterexample :
    statusStreamDrain [("a", ⟨JobStatus.done, some "cast.mp3", none⟩)]
        [("a", [doneSentinel])] "a" =
      Except.ok ([SseEvent.complete JobStatus.done (some "cast.mp3") none],
        [("a", ([] : List String))]) ∧
    alookup "a" [("a", ([] : List String))] = some [] := by
  exact ⟨rfl, rfl⟩

/-- C9 (amended): a job's channel is created at submission time; consuming
the terminal marker removes the consumed items from the queue and emits the
completion event, but the channel map entry for the job identifier is never
destroyed — it remains in the map (with the items that followed the marker)
after the complete event is relayed. -/
theorem C9_channel_lifecycle_amended :
    (∀ jobs qs jobId, alookup jobId ((submitJob jobs qs jobId).2) = some []) ∧
    (∀ jobs qs jobId job q0 pre post,
      alookup jobId jobs = some job →
      alookup jobId qs = some q0 →
      q0 = pre ++ doneSentinel :: post →
      doneSentinel ∉ pre →
      statusStreamDrain jobs qs jobId =
        Except.ok (pre.map SseEvent.log ++
            [SseEvent.complete job.status job.result job.error],
          setQueue qs jobId post) ∧
      alookup jobId (setQueue qs jobId post) = some post) := by
  constructor
  · intro jobs qs jobId
    simp [submitJob, alookup]
  · intro jobs qs jobId job q0 pre post hj hq hsplit hpre
    constructor
    · simp only [statusStreamDrain, hj, hq, hsplit, drainQueue_append job pre post hpre]
    · exact lookup_setQueue jobId post qs q0 hq

/-- C9 witness: the amended theorem on a submitted job whose channel holds
one log line and the sentinel. -/
theorem C9_channel_lifecycle_amended_witness :
    statusStreamDrain [("a", ⟨JobStatus.jobError, none, some "boom"⟩)]
        [("a", ["working", doneSentinel, "late"])] "a" =
      Except.ok ([SseEvent.log "working",
          SseEvent.complete JobStatus.jobError none (some "boom")],
        setQueue [("a", ["working", doneSentinel, "late"])] "a" ["late"]) ∧
    alookup "a" (setQueue [("a", ["working", doneSentinel, "late"])] "a" ["late"]) =
      some ["late"] :=
  C9_channel_lifecycle_amended.2 [("a", ⟨JobStatus.jobError, none, some "boom"⟩)]
    [("a", ["working", doneSentinel, "late"])] "a"
    ⟨JobStatus.jobError, none, some "boom"⟩ ["working", doneSentinel, "late"]
    ["working"] ["late"] (by decide) (by decide) (by decide) (by decide)

/-! ## C10 — the in-band terminal marker -/

/-- C10: the terminal marker is the in-band string `"__DONE__"`.  Any text
whose stripped form equals `"__DONE__"` — including an ordinary progress
line printed by a pipeline stage — is pushed onto the open channels as
exactly `"__DONE__"` by `_TeeWriter.write`; the stream endpoint treats such
an item as the terminal marker, emitting the completion event (even when
the job's status is still `running`) and ending the stream; consequently no
log event ever carries the message `"__DONE__"`. -/
theorem C10_inband_sentinel :
    (∀ qs b qb text, pyStrip text = doneSentinel → alookup b qs = some qb →
      alookup b (teeWrite qs text) = some (putNowait qb doneSentinel)) ∧
    (∀ job rest, relayEvents job (ChannelObs.line doneSentinel :: rest) =
      [SseEvent.complete job.status job.result job.error]) ∧
    (∀ rest, relayEvents ⟨JobStatus.running, none, none⟩
        (ChannelObs.line doneSentinel :: rest) =
      [SseEvent.complete JobStatus.running none none]) ∧
    (∀ job obs, SseEvent.log doneSentinel ∉ relayEvents job obs) := by
  refine ⟨?_, ?_, ?_, ?_⟩
  · intro qs b qb text ht hb
    have hne : ¬ pyStrip text = "" := by
      rw [ht]
      decide
    have := teeWrite_lookup qs b qb text hne hb
    rw [ht] at this
    exact this
  · intro job rest; rfl
  · intro rest; rfl
  · exact log_sentinel_not_relayed

/-- C10 witness: a stage's printed line `"  __DONE__ \n"` is pushed as the
bare marker onto an open channel. -/
theorem C10_inband_sentinel_witness :
    alookup "a" (teeWrite [("a", [])] "  __DONE__ \n") = some (putNowait [] doneSentinel) :=
  C10_inband_sentinel.1 [("a", [])] "a" [] "  __DONE__ \n" (by decide) (by decide)

/-! ## C2 — budget enforcement -/

/-- Length of a Python character slice. -/
theorem pyTake_length (s : String) (n : Nat) : (pyTake s n).length = min n s.length := by
  show (s.data.take n).length = min n s.data.length
  exact List.length_take n s.data

/-- A truncated line never exceeds the per-line limit. -/
theorem truncateLine_le (perLimit : Nat) (l : DialogueLine) :
    (truncateLine perLimit l).text.length ≤ perLimit := by
  unfold truncateLine
  split
  · rw [pyTake_length]
    exact min_le_left _ _
  · omega

/-- The trimming loop is the identity when the remaining budget suffices. -/
theorem trimToBudget_eq_self (totalLimit : Nat) :
    ∀ (ls : List DialogueLine) (running : Nat),
      running + totalLen ls ≤ totalLimit → trimToBudget totalLimit running ls = ls := by
  intro ls
  induction ls with
  | nil => intro running _; rfl
  | cons l rest ih =>
      intro running h
      have hsum : totalLen (l :: rest) = l.text.length + totalLen rest := by
        simp [totalLen]
      rw [hsum] at h
      unfold trimToBudget
      rw [if_neg (by omega)]
      rw [ih (running + l.text.length) (by omega)]

/-- The trimming loop returns a prefix of its input. -/
theorem trimToBudget_front (totalLimit : Nat) :
    ∀ (ls : List DialogueLine) (running : Nat),
      trimToBudget totalLimit running ls <+: ls := by
  intro ls
  induction ls with
  | nil => intro running; exact List.prefix_refl _
  | cons l rest ih =>
      intro running
      unfold trimToBudget
      split
      · exact List.nil_prefix
      · rcases ih (running + l.text.length) with ⟨t, ht⟩
        exact ⟨t, by rw [List.cons_append, ht]⟩

/-- The trimming loop keeps the cumulative length within the budget. -/
theorem trimToBudget_total (totalLimit : Nat) :
    ∀ (ls : List DialogueLine) (running : Nat), running ≤ totalLimit →
      running + totalLen (trimToBudget totalLimit running ls) ≤ totalLimit := by
  intro ls
  induction ls with
  | nil => intro running h; simpa [trimToBudget, totalLen] using h
  | cons l rest ih =>
      intro running h
      unfold trimToBudget
      split
      · simpa [totalLen] using h
      · rename_i hfits
        have := ih (running + l.text.length) (by omega)
        simp only [totalLen, List.map_cons, List.sum_cons] at this ⊢
        omega

/-- C2: the budget enforcer of `write_script` first truncates every record
whose text exceeds the per-record limit to exactly that limit, then walks
the records in order with a running total, including a record only when it
does not push the total over the limit and stopping at the first overflow
(the output is a prefix of the truncated list); hence no returned record
exceeds the per-record limit and the total never exceeds the total limit.
On `perLimit = 10`, `totalLimit = 15` and records of lengths 13 and 5, the
first is truncated to 10 characters and both are returned. -/
theorem C2_budget_enforcement :
    (∀ per total recs, enforceBudget per total recs =
      trimToBudget total 0 (recs.map (truncateLine per))) ∧
    (∀ per total recs, enforceBudget per total recs <+: recs.map (truncateLine per)) ∧
    (∀ per total recs l, l ∈ enforceBudget per total recs → l.text.length ≤ per) ∧
    (∀ per total recs, totalLen (enforceBudget per total recs) ≤ total) ∧
    enforceBudget 10 15 [⟨"Host", "0123456789ABC"⟩, ⟨"Guest", "short"⟩] =
      [⟨"Host", "0123456789"⟩, ⟨"Guest", "short"⟩] := by
  have heq : ∀ per total recs, enforceBudget per total recs =
      trimToBudget total 0 (recs.map (truncateLine per)) := by
    intro per total recs
    simp only [enforceBudget]
    split
    · rfl
    · rename_i hle
      rw [trimToBudget_eq_self total (recs.map (truncateLine per)) 0 (by omega)]
  refine ⟨heq, ?_, ?_, ?_, ?_⟩
  · intro per total recs
    rw [heq]
    exact trimToBudget_front total (recs.map (truncateLine per)) 0
  · intro per total recs l hl
    rw [heq] at hl
    have hmem : l ∈ recs.map (truncateLine per) :=
      (trimToBudget_front total (recs.map (truncateLine per)) 0).subset hl
    rcases List.mem_map.mp hmem with ⟨a, _, ha⟩
    rw [← ha]
    exact truncateLine_le per a
  · intro per total recs
    rw [heq]
    have := trimToBudget_total total (recs.map (truncateLine per)) 0 (Nat.zero_le _)
    omega
  · rfl

/-- C2 witness: the per-record bound evaluated on the spec's example. -/
theorem C2_budget_enforcement_witness :
    (⟨"Host", "0123456789"⟩ : DialogueLine).text.length ≤ 10 :=
  C2_budget_enforcement.2.2.1 10 15 [⟨"Host", "0123456789ABC"⟩, ⟨"Guest", "short"⟩]
    ⟨"Host", "0123456789"⟩ (by decide)

/-! ## C8 — strict stage sequencing with fail-fast -/

/-- C8: the pipeline invokes the five stages in order — the trace of invoked
stages is always a prefix of the ordered five-stage list, and on success it
is exactly that list; a failure at stage 3 (summarization) produces the
stage's error and a trace that stops at stage 3, so stages 4 and 5 are never
invoked; and a research stage returning an empty record list aborts the job
with `RuntimeError("Research stage returned no data.")` before stage 3. -/
theorem C8_stage_sequencing :
    (∀ st topic, (runPipeline st topic).2 <+: allStages) ∧
    (∀ st topic path, (runPipeline st topic).1 = Except.ok path →
      (runPipeline st topic).2 = allStages) ∧
    (∀ st topic raw queries resData,
      st.callFlash topic = Except.ok raw →
      pyExtractQueries raw = some queries →
      st.researchRun queries = Except.ok resData →
      ((resData = [] →
        runPipeline st topic =
          (Except.error "Research stage returned no data.",
           [StageTag.queryGen, StageTag.researchStage])) ∧
       (∀ e, st.summariseRun topic resData = Except.error e → resData ≠ [] →
        runPipeline st topic =
          (Except.error e,
           [StageTag.queryGen, StageTag.researchStage, StageTag.summarizeStage]) ∧
        StageTag.scriptStage ∉ (runPipeline st topic).2 ∧
        StageTag.produceStage ∉ (runPipeline st topic).2))) := by
  refine ⟨?_, ?_, ?_⟩
  · intro st topic
    unfold runPipeline
    split
    · exact ⟨_, rfl⟩
    · split
      · exact ⟨_, rfl⟩
      · split
        · exact ⟨_, rfl⟩
        · split
          · exact ⟨_, rfl⟩
          · split
            · exact ⟨_, rfl⟩
            · split
              · exact ⟨_, rfl⟩
              · split
                · exact List.prefix_refl _
                · exact List.prefix_refl _
  · intro st topic path h
    unfold runPipeline at h ⊢
    cases hc : st.callFlash topic with
    | error e => simp only [hc] at h; exact Except.noConfusion h
    | ok raw =>
        simp only [hc] at h ⊢
        cases hq : pyExtractQueries raw with
        | none => simp only [hq] at h; exact Except.noConfusion h
        | some queries =>
            simp only [hq] at h ⊢
            cases hr : st.researchRun queries with
            | error e => simp only [hr] at h; exact Except.noConfusion h
            | ok resData =>
                simp only [hr] at h ⊢
                by_cases he : resData.isEmpty
                · simp only [he, if_true] at h
                  exact Except.noConfusion h
                · simp only [he, if_false] at h ⊢
                  cases hs : st.summariseRun topic resData with
                  | error e => simp only [hs] at h; exact Except.noConfusion h
                  | ok report =>
                      simp only [hs] at h ⊢
                      cases hw : st.writeScriptRun topic report with
                      | error e => simp only [hw] at h; exact Except.noConfusion h
                      | ok dialogue =>
                          simp only [hw] at h ⊢
                          cases hp : st.produceRun dialogue <;> simp [hp]
  · intro st topic raw queries resData hflash hqueries hres
    constructor
    · intro hempty
      subst hempty
      unfold runPipeline
      simp only [hflash, hqueries, hres]
      rfl
    · intro e hsum hnonempty
      have hne : resData.isEmpty = false := by
        cases resData
        · exact absurd rfl hnonempty
        · rfl
      have hrun : runPipeline st topic =
          (Except.error e,
           [StageTag.queryGen, StageTag.researchStage, StageTag.summarizeStage]) := by
        unfold runPipeline
        simp only [hflash, hqueries, hres, hne, Bool.false_eq_true, if_false, hsum]
      refine ⟨hrun, ?_, ?_⟩ <;> rw [hrun] <;> simp

/-- C8 witness: a concrete run whose summarization stage fails — the
pipeline stops after stage 3 with that stage's error. -/
theorem C8_stage_sequencing_witness :
    runPipeline sampleStagesFail3 "topic" =
      (Except.error "summarizer boom",
       [StageTag.queryGen, StageTag.researchStage, StageTag.summarizeStage]) :=
  (((C8_stage_sequencing.2.2 sampleStagesFail3 "topic" "[\"q1\"]" [Json.str "q1"]
      [⟨"u", "t", "body"⟩] rfl (by rfl) rfl).2 "summarizer boom" rfl
      (by decide))).1

/-! ## C3 — structured-text extraction success -/

/-- C3 (counterexample): the claim says that for EVERY well-formed JSON
array embedded in arbitrary prose, extraction returns that array exactly.
`"[1]"` is a well-formed JSON array and it is embedded in the prose
`"see [1] and [2]"`, yet both extractors fail on it: the direct parse
fails, there is no fence, and the greedy fallback spans from the first `[`
to the last `]` (`"[1] and [2]"`), which is not valid JSON. -/
theorem C3_extraction_success_counterexample :
    pyJsonLoads "[1]" = some (Json.arr [Json.num 1]) ∧
    pyExtractJson "see [1] and [2]" = none ∧
    pyExtractQueries "see [1] and [2]" = none := by
  exact ⟨rfl, rfl, rfl⟩

/-- C3 (amended): extraction attempts exactly the three strategies in order
— direct parse, fenced block, greedy first-`[`-to-last-`]` span — stopping
at the first success; a text that is itself a well-formed JSON array is
returned exactly, and when the earlier strategies fail, the extractor
returns whatever array the fenced capture (resp. the greedy span) parses
to.  An array embedded in prose is recovered exactly only in such cases —
e.g. the spec's fenced example — not for arbitrary prose (prose with any
other `[` or `]` can defeat the greedy fallback). -/
theorem C3_extraction_success_amended :
    (∀ raw xs, directStrategyJson raw = some xs → pyExtractJson raw = some xs) ∧
    (∀ raw xs, directStrategyJson raw = none → fenceStrategy raw = some xs →
      pyExtractJson raw = some xs) ∧
    (∀ raw, directStrategyJson raw = none → fenceStrategy raw = none →
      pyExtractJson raw = bracketStrategy raw) ∧
    (∀ raw xs, directStrategyQueries raw = some xs → pyExtractQueries raw = some xs) ∧
    (∀ raw xs, directStrategyQueries raw = none → fenceStrategy raw = some xs →
      pyExtractQueries raw = some xs) ∧
    (∀ raw, directStrategyQueries raw = none → fenceStrategy raw = none →
      pyExtractQueries raw = bracketStrategy raw) ∧
    (∀ raw xs, pyJsonLoads raw = some (Json.arr xs) → pyExtractJson raw = some xs) ∧
    pyExtractJson "here is it: ```json\n[\"a\",\"b\"]\n```" =
      some [Json.str "a", Json.str "b"] ∧
    pyExtractJson "prose before [\"a\", \"b\"] prose after" =
      some [Json.str "a", Json.str "b"] := by
  refine ⟨?_, ?_, ?_, ?_, ?_, ?_, ?_, rfl, rfl⟩
  · intro raw xs h
    unfold pyExtractJson
    simp [h]
  · intro raw xs h1 h2
    unfold pyExtractJson
    simp [h1, h2]
  · intro raw h1 h2
    unfold pyExtractJson
    simp [h1, h2]
  · intro raw xs h
    unfold pyExtractQueries
    simp [h]
  · intro raw xs h1 h2
    unfold pyExtractQueries
    simp [h1, h2]
  · intro raw h1 h2
    unfold pyExtractQueries
    simp [h1, h2]
  · intro raw xs h
    have hd : directStrategyJson raw = some xs := by
      unfold directStrategyJson
      rw [h]
      rfl
    unfold pyExtractJson
    simp [hd]

/-- C3 witness: the whole-text case applied to a concrete array. -/
theorem C3_extraction_success_amended_witness :
    pyExtractJson "[1, 2]" = some [Json.num 1, Json.num 2] :=
  C3_extraction_success_amended.2.2.2.2.2.2.1 "[1, 2]" [Json.num 1, Json.num 2] rfl

/-! ## C4 — structured-text extraction failure -/

/-- C4: each parse attempt that errors is discarded silently and the next
strategy is tried; extraction fails (Python: raises, here: `none`) exactly
when all three strategies fail — in both extractors — and in particular
the input `"no data here"`, which contains no valid array, fails. -/
theorem C4_extraction_failure :
    (∀ raw, pyExtractJson raw = none ↔
      (directStrategyJson raw = none ∧ fenceStrategy raw = none ∧
       bracketStrategy raw = none)) ∧
    (∀ raw, pyExtractQueries raw = none ↔
      (directStrategyQueries raw = none ∧ fenceStrategy raw = none ∧
       bracketStrategy raw = none)) ∧
    pyExtractJson "no data here" = none ∧
    pyExtractQueries "no data here" = none := by
  refine ⟨?_, ?_, rfl, rfl⟩
  · intro raw
    unfold pyExtractJson
    cases hd : directStrategyJson raw with
    | some xs => simp [hd]
    | none =>
        cases hf : fenceStrategy raw with
        | some xs => simp [hf]
        | none => simp [hf]
  · intro raw
    unfold pyExtractQueries
    cases hd : directStrategyQueries raw with
    | some xs => simp [hd]
    | none =>
        cases hf : fenceStrategy raw with
        | some xs => simp [hf]
        | none => simp [hf]

/-- C4 witness: the failure characterisation evaluated at `"no data here"`:
all three strategies fail there. -/
theorem C4_extraction_failure_witness :
    directStrategyJson "no data here" = none ∧ fenceStrategy "no data here" = none ∧
      bracketStrategy "no data here" = none :=
  (C4_extraction_failure.1 "no data here").mp C4_extraction_failure.2.2.1

end EchoCast
